import Mathlib

/-!
Shallow embedding of the statistical time-series analysis engine of this
repository, taken from
`src/backend/app/services/timeseries_analysis_service.py` and
`src/backend/app/services/data_analysis_service.py`.

Conventions of the embedding:
* A cleaned numeric series is a `List ℚ` (every IEEE-754 float is a rational
  number, so exact rational arithmetic subsumes the float values the code
  manipulates; float rounding itself is not modelled).
* Operations that leave ℚ (square roots, logarithms) are modelled in `ℝ`.
* Calls into external libraries that are not part of this repository are
  modelled as parameters of the embedding (sklearn's
  `mutual_info_regression`) or omitted fields that no claim touches
  (scipy's `chi2.cdf`, `norm.cdf`, `periodogram`), as noted per definition.
* Python `numpy` reductions on nonempty arrays are total here; `np.mean` of
  an empty list is modelled as `0` and is only ever applied where the code
  guarantees nonempty input.
-/

open scoped Classical

/-- `np.mean` of a rational list (callers guarantee nonempty input). -/
def meanQ (l : List ℚ) : ℚ := l.sum / l.length

/-- `np.mean((data - mean)**2)`: the biased sample variance, line 72 of
`timeseries_analysis_service.py` (`c0`) and `np.std(...)**2`. -/
def varQ (l : List ℚ) : ℚ := meanQ (l.map fun x => (x - meanQ l) ^ 2)

/-- `max_lags = min(max_lags, n // 4)`, line 68. -/
def acfMaxLags (n L : ℕ) : ℕ := min L (n / 4)

/-- The list `acf_values` of `calculate_autocorrelation`, lines 70-82:
`acf_values[0] = 1.0`; for `lag > 0`,
`c_lag = np.mean((data[:-lag] - mean) * (data[lag:] - mean))` and the value
is `c_lag / c0 if c0 > 0 else 0`.  `data[:-lag]` is `take (n - lag)`,
`data[lag:]` is `drop lag`. -/
def acfValues (data : List ℚ) (L : ℕ) : List ℚ :=
  let n := data.length
  let m := meanQ data
  let c0 := varQ data
  (List.range (acfMaxLags n L + 1)).map fun lag =>
    if lag = 0 then 1
    else
      let clag := meanQ (List.zipWith (fun a b => (a - m) * (b - m))
        (data.take (n - lag)) (data.drop lag))
      if 0 < c0 then clag / c0 else 0

/-- Result dictionary of `calculate_autocorrelation`.  The field
`ljung_box_p_value` of the source (line 107) is omitted: it is produced by
scipy's `stats.chi2.cdf`, an external library, and no claim mentions it. -/
structure ACFResult where
  lags : List ℕ
  acf_values : List ℚ
  confidence_intervals : List (ℝ × ℝ)
  significant_lags : List ℕ
  ljung_box_statistic : Option ℚ

/-- `calculate_autocorrelation(data, max_lags)`, lines 45-129.  The
`len(data) < 10` guard returns the empty result; otherwise the confidence
band is `se = 1.96 / sqrt(n)` at every lag, a lag `k ≥ 1` is significant iff
`|acf(k)| > se`, and the Ljung-Box statistic
`Q = n (n+2) Σ_{i=1..} acf(i)^2 / (n-i)` is produced only when
`len(data) > 20 and max_lags > 1`. -/
noncomputable def calculate_autocorrelation (data : List ℚ) (L : ℕ) : ACFResult :=
  if data.length < 10 then ⟨[], [], [], [], none⟩
  else
    let n := data.length
    let eff := acfMaxLags n L
    let vals := acfValues data L
    let lags := List.range (eff + 1)
    let se : ℝ := 1.96 / Real.sqrt n
    ⟨lags, vals,
     lags.map fun _ => (-se, se),
     ((lags.drop 1).zip (vals.drop 1)).filterMap fun p =>
       if se < |((p.2 : ℚ) : ℝ)| then some p.1 else none,
     if 20 < n ∧ 1 < eff then
       some ((n : ℚ) * ((n : ℚ) + 2) *
         ((List.range' 1 (min (eff + 1) vals.length - 1)).map fun i =>
           (vals.getD i 0) ^ 2 / ((n : ℚ) - (i : ℚ))).sum)
     else none⟩

/-- The Yule-Walker matrix `R` of `calculate_partial_autocorrelation`,
line 181: `R[i][j] = acf_values[abs(i - j)]`. -/
def yuleWalkerR (acf : List ℚ) (k : ℕ) : Matrix (Fin k) (Fin k) ℚ :=
  Matrix.of fun i j => acf.getD (Nat.dist i j) 0

/-- The right-hand side `r` of the Yule-Walker system, line 182:
`r[i] = acf_values[i + 1]`. -/
def yuleWalkerRhs (acf : List ℚ) (k : ℕ) : Fin k → ℚ :=
  fun i => acf.getD ((i : ℕ) + 1) 0

/-- One iteration of the Yule-Walker loop for an order `k ≥ 2`, lines
179-191: if `np.linalg.det(R) != 0`, solve `R · φ = r` with
`np.linalg.solve` (in exact arithmetic the unique solution is
`det⁻¹ • adjugate R · r`) and emit the last coefficient `φ[-1] = φ[k-1]`;
if `det R = 0`, emit `0.0`.  The `k = 0` branch only makes the definition
total; the loop calls it with `k ≥ 2` only. -/
def pacfNext (acf : List ℚ) (k : ℕ) : ℚ :=
  if hk : k = 0 then 0
  else
    let R := yuleWalkerR acf k
    if R.det = 0 then 0
    else (R.det⁻¹ • R.adjugate.mulVec (yuleWalkerRhs acf k)) ⟨k - 1, by omega⟩

/-- The list `pacf_values`, lines 168-191 of
`calculate_partial_autocorrelation`: starts with `PACF(0) = 1`, then
iterates `k = 1 .. max_lags`, breaking as soon as `k ≥ len(acf_values)`
(the `break`, modelled by `takeWhile`), emitting `acf_values[1]` at `k = 1`
and the Yule-Walker solution at `k ≥ 2`.  The source calls
`calculate_autocorrelation(data, max_lags)` with the already clamped
`max_lags` (lines 153 and 156). -/
def pacfValues (data : List ℚ) (L : ℕ) : List ℚ :=
  let eff := acfMaxLags data.length L
  let acf := acfValues data eff
  1 :: (((List.range' 1 eff).takeWhile fun k => decide (k < acf.length)).map
    fun k => if k = 1 then acf.getD 1 0 else pacfNext acf k)

/-- Result dictionary of `calculate_partial_autocorrelation`. -/
structure PACFResult where
  lags : List ℕ
  pacf_values : List ℚ
  confidence_intervals : List (ℝ × ℝ)
  significant_lags : List ℕ

/-- `calculate_partial_autocorrelation(data, max_lags)`, lines 132-220:
guards for `len(data) < 10` and `len(acf_values) <= 1`, then the
Yule-Walker recursion, `lags` trimmed to the length of `pacf_values`
(line 194), and the same confidence band and significance rule as the
ACF. -/
noncomputable def calculate_partial_autocorrelation (data : List ℚ) (L : ℕ) :
    PACFResult :=
  if data.length < 10 then ⟨[], [], [], []⟩
  else
    let n := data.length
    let eff := acfMaxLags n L
    let acf := acfValues data eff
    if acf.length ≤ 1 then ⟨[], [], [], []⟩
    else
      let vals := pacfValues data L
      let lags := (List.range (eff + 1)).take vals.length
      let se : ℝ := 1.96 / Real.sqrt n
      ⟨lags, vals,
       lags.map fun _ => (-se, se),
       ((lags.drop 1).zip (vals.drop 1)).filterMap fun p =>
         if se < |((p.2 : ℚ) : ℝ)| then some p.1 else none⟩

/-- Concrete series used by witnesses: `0, 1, ..., 11` as rationals. -/
def sampleRamp12 : List ℚ := (List.range 12).map fun i => (i : ℚ)

/-- Concrete constant series of length 12 used by witnesses. -/
def sampleConst12 : List ℚ := List.replicate 12 (5 : ℚ)

/-- Concrete alternating series `1, -1, 1, -1, ...` of length 12.  Its exact
lag-1 autocorrelation is `-1` (the code's lag-`k` covariance averages over
`n - k` terms), so the order-2 Yule-Walker matrix `[[1, -1], [-1, 1]]` is
singular. -/
def sampleAlt12 : List ℚ := [1, -1, 1, -1, 1, -1, 1, -1, 1, -1, 1, -1]

/-- `np.diff(data)`: first differences `x[i+1] - x[i]`, line 474. -/
def diffQ (l : List ℚ) : List ℚ := List.zipWith (fun a b => a - b) (l.drop 1) l

/-- Numerator of Pearson correlation: `Σ (x-x̄)(y-ȳ)` over paired entries. -/
def covSumQ (x y : List ℚ) : ℚ :=
  (List.zipWith (fun a b => (a - meanQ x) * (b - meanQ y)) x y).sum

/-- `Σ (x-x̄)²` (the `1/(n-1)` factors of `np.cov`/`np.corrcoef` cancel in
the correlation quotient, so they are not written). -/
def varSumQ (x : List ℚ) : ℚ := (x.map fun a => (a - meanQ x) ^ 2).sum

/-- `np.corrcoef(x, y)[0, 1]`: Pearson correlation
`Σ(x-x̄)(y-ȳ) / (√Σ(x-x̄)² √Σ(y-ȳ)²)`.  Where one variance is zero numpy
produces NaN from `0/0`; here real division by zero yields `0`.  Every
caller either tests that case explicitly (`np.isnan`, modelled by a
zero-variance test at the call site) or only compares the result against a
negative threshold, which NaN and `0` both fail, so the verdicts agree. -/
noncomputable def corrR (x y : List ℚ) : ℝ :=
  (covSumQ x y : ℝ) / (Real.sqrt (varSumQ x) * Real.sqrt (varSumQ y))

/-- Result of `calculate_stationarity_tests`, lines 445-532.  The field
`adf_p_value` is omitted: it comes from scipy's `stats.norm.cdf`, an
external library, and no claim mentions it.  The KPSS and PP slots are the
constant `None` in the source (lines 509-515). -/
structure StationarityResult where
  adf_statistic : ℝ
  adf_critical_1 : ℚ
  adf_critical_5 : ℚ
  adf_critical_10 : ℚ
  adf_is_stationary : Prop
  kpss_statistic : Option ℚ
  pp_statistic : Option ℚ

/-- `calculate_stationarity_tests(data)`, lines 445-532: after the
`len(data) < 20` guard, regress the first difference on the lagged level
via the correlation coefficient, scale by `√n`
(`adf_stat = correlation * np.sqrt(n)`, line 483), fix the critical values
`{1%: -3.43, 5%: -2.86, 10%: -2.57}` (line 489), and declare stationarity
iff `adf_stat < critical["5%"]` (line 490). -/
noncomputable def calculate_stationarity_tests (data : List ℚ) :
    StationarityResult :=
  if data.length < 20 then ⟨0, 0, 0, 0, False, none, none⟩
  else
    let diff := diffQ data
    let lagged := data.take (data.length - 1)
    if 0 < diff.length ∧ 0 < lagged.length then
      let adf_stat := corrR diff lagged * Real.sqrt data.length
      ⟨adf_stat, -3.43, -2.86, -2.57,
       adf_stat < ((-2.86 : ℚ) : ℝ), none, none⟩
    else ⟨0, 0, 0, 0, False, none, none⟩

/-- The list `mi_values` of `calculate_mutual_information`, lines 246-269.
sklearn's `mutual_info_regression` is an external library, modelled by the
parameter `miEst` (each float it can return is a rational): `MI(0) = 0`;
for `lag ≥ 1` the estimator is applied to `x = data[:-lag]`,
`y = data[lag:]`, with `0.0` emitted when `len(x) < 10`. -/
def miValues (miEst : List ℚ → List ℚ → ℚ) (data : List ℚ) (L : ℕ) :
    List ℚ :=
  let n := data.length
  (List.range (min L (n / 4) + 1)).map fun lag =>
    if lag = 0 then 0
    else
      let x := data.take (n - lag)
      let y := data.drop lag
      if x.length < 10 then 0 else miEst x y

/-- The optimal-lag scan of `calculate_mutual_information`, lines 271-282:
when `len(mi_values) > 3`, the first `i` in `range(2, len(mi_values) - 1)`
with `mi[i] < mi[i-1]` and `mi[i] < mi[i+1]` (and `lags[i] = i`);
otherwise `None`. -/
def miOptimalLag (mv : List ℚ) : Option ℕ :=
  if 3 < mv.length then
    (List.range' 2 (mv.length - 3)).find? fun i =>
      decide (mv.getD i 0 < mv.getD (i - 1) 0) &&
        decide (mv.getD i 0 < mv.getD (i + 1) 0)
  else none

/-- Result dictionary of `calculate_mutual_information`. -/
structure MIResult where
  lags : List ℕ
  mi_values : List ℚ
  optimal_lag : Option ℕ
  mi_threshold : ℝ

/-- `calculate_mutual_information(data, max_lags)`, lines 223-301, with
`mi_threshold = np.mean(mi_values) + np.std(mi_values)`. -/
noncomputable def calculate_mutual_information
    (miEst : List ℚ → List ℚ → ℚ) (data : List ℚ) (L : ℕ) : MIResult :=
  if data.length < 20 then ⟨[], [], none, 0⟩
  else
    let mv := miValues miEst data L
    ⟨List.range (min L (data.length / 4) + 1), mv, miOptimalLag mv,
     (meanQ mv : ℝ) + Real.sqrt (varQ mv)⟩

/-- The spec's notion for C8: lag `k ≥ 2` is a strict local minimum of the
MI curve (both neighbours among the computed values). -/
def miLocalMin (mv : List ℚ) (k : ℕ) : Prop :=
  2 ≤ k ∧ k + 1 < mv.length ∧ mv.getD k 0 < mv.getD (k - 1) 0 ∧
    mv.getD k 0 < mv.getD (k + 1) 0

/-- Concrete series used by witnesses: `0, 1, ..., 19` as rationals. -/
def sampleRamp20 : List ℚ := (List.range 20).map fun i => (i : ℚ)

/-- The dyadic scale list of `calculate_hurst_exponent`, lines 328-333:
`max_scale = int(np.log2(n // 4))` (for `n ≥ 50` the argument is ≥ 12, so
the float `log2` truncates to `Nat.log 2`), then
`scales = [2**i for i in range(2, max_scale + 1)]`, with the fallback
`[4, 8, 16]` when that list is empty (unreachable for `n ≥ 50`, where
`max_scale ≥ 3`; for `n < 50` the function returns before this point). -/
def hurstScales (n : ℕ) : List ℕ :=
  let max_scale := Nat.log 2 (n / 4)
  let scales := (List.range' 2 (max_scale - 1)).map fun i => 2 ^ i
  if scales = [] then [4, 8, 16] else scales

/-- `np.cumsum`: the list of partial sums. -/
def cumsumQ (l : List ℚ) : List ℚ := ((l.scanl (· + ·) 0).drop 1)

/-- Maximum of a rational list (callers guarantee nonempty input). -/
def listMaxQ (l : List ℚ) : ℚ :=
  match l with
  | [] => 0
  | a :: t => t.foldl max a

/-- Minimum of a rational list (callers guarantee nonempty input). -/
def listMinQ (l : List ℚ) : ℚ :=
  match l with
  | [] => 0
  | a :: t => t.foldl min a

/-- The per-scale R/S value, lines 341-368: split the series into
`num_windows = n // scale` non-overlapping windows of length `scale`; in
each window take the range `R` of the cumulative mean-centred sums and the
standard deviation `S = np.std(window)`; keep `R/S` when `S > 0`; the
scale's value is the mean of the kept ratios, or `1.0` when none were
kept. -/
noncomputable def rsForScale (data : List ℚ) (scale : ℕ) : ℝ :=
  let n := data.length
  let ratios := (List.range (n / scale)).filterMap fun i =>
    let w := (data.drop (i * scale)).take scale
    let m := meanQ w
    let devs := cumsumQ (w.map fun x => x - m)
    let R : ℚ := listMaxQ devs - listMinQ devs
    let S : ℝ := Real.sqrt (varQ w)
    if 0 < S then some ((R : ℝ) / S) else none
  if ratios ≠ [] then ratios.sum / ratios.length else 1

/-- The R/S loop over scales, lines 337-372, including the
`if scale >= n: break` at the top of each iteration. -/
noncomputable def rsLoop (data : List ℚ) : List ℕ → List ℝ
  | [] => []
  | s :: rest =>
      if data.length ≤ s then []
      else rsForScale data s :: rsLoop data rest

/-- `scales = scales[:len(rs_values)]`, line 375. -/
noncomputable def hurstTrimmedScales (data : List ℚ) : List ℕ :=
  (hurstScales data.length).take
    (rsLoop data (hurstScales data.length)).length

/-- Mean of a real list (callers guarantee nonempty input). -/
noncomputable def meanR (l : List ℝ) : ℝ := l.sum / l.length

/-- Result dictionary of `calculate_hurst_exponent`. -/
structure HurstResult where
  hurst_exponent : ℝ
  scales : List ℕ
  rs_values : List ℝ
  regression_slope : ℝ
  regression_intercept : ℝ
  r_squared : ℝ
  interpretation : String

/-- `log10`, used by the regression on the log-log plot. -/
noncomputable def log10 (x : ℝ) : ℝ := Real.log x / Real.log 10

/-- `calculate_hurst_exponent(data)`, lines 304-442: the `len(data) < 50`
guard (`"insufficient_data"`); the dyadic scales and R/S loop; the
`len(scales) < 3` guard (`"insufficient_scales"`); the removal of
non-finite log-log points — `log10(scale)` is always finite and
`log10(rs)` is finite iff `rs > 0` — with the `< 3` recheck
(`"invalid_data"`); and finally `stats.linregress` on the remaining
points (ordinary least squares, `H = slope`), classified as
mean-reverting / trending / random-walk around `0.5`. -/
noncomputable def calculate_hurst_exponent (data : List ℚ) : HurstResult :=
  if data.length < 50 then
    ⟨0.5, [], [], 0, 0, 0, "insufficient_data"⟩
  else
    let rs_values := rsLoop data (hurstScales data.length)
    let scales := hurstTrimmedScales data
    if scales.length < 3 then
      ⟨0.5, scales, rs_values, 0, 0, 0, "insufficient_scales"⟩
    else
      let pts := (scales.zip rs_values).filterMap fun p =>
        if 0 < p.2 then some (log10 p.1, log10 p.2) else none
      if pts.length < 3 then
        ⟨0.5, scales, rs_values, 0, 0, 0, "invalid_data"⟩
      else
        let xs := pts.map Prod.fst
        let ys := pts.map Prod.snd
        let slope := (List.zipWith
            (fun a b => (a - meanR xs) * (b - meanR ys)) xs ys).sum /
          (xs.map fun a => (a - meanR xs) ^ 2).sum
        let intercept := meanR ys - slope * meanR xs
        let r := (List.zipWith
            (fun a b => (a - meanR xs) * (b - meanR ys)) xs ys).sum /
          (Real.sqrt ((xs.map fun a => (a - meanR xs) ^ 2).sum) *
            Real.sqrt ((ys.map fun a => (a - meanR ys) ^ 2).sum))
        let interp :=
          if slope < 0.5 then "mean_reverting"
          else if 0.5 < slope then "trending"
          else "random_walk"
        ⟨slope, scales, rs_values, slope, intercept, r ^ 2, interp⟩

/-- The canonical seasonal periods probed by
`calculate_seasonality_analysis`, line 585. -/
def commonPeriods : List ℕ := [7, 12, 24, 30, 365]

/-- The `(period, strength)` pairs collected by the loop of lines 587-603
of `calculate_seasonality_analysis`: canonical periods `p` with
`p < n // 2` (the `continue` at line 588) and `p < len(data)` (line 593),
paired with `abs(np.corrcoef(data[:-p], data[p:])[0, 1])` whenever both
slices are nonempty (line 597) and the correlation is not NaN (line 599;
numpy yields NaN exactly when a slice has zero variance).  The source
appends to the parallel lists `seasonal_periods` / `seasonal_strengths`;
here each pair carries both components. -/
noncomputable def seasonalPairs (data : List ℚ) : List (ℕ × ℝ) :=
  let n := data.length
  commonPeriods.filterMap fun p =>
    if n / 2 ≤ p then none
    else if p < n then
      let x := data.take (n - p)
      let y := data.drop p
      if 0 < x.length ∧ 0 < y.length then
        if varSumQ x = 0 ∨ varSumQ y = 0 then none
        else some (p, |corrR x y|)
      else none
    else none

/-- The dominant-period selection, lines 605-610: when candidate strengths
exist, take `np.argmax(seasonal_strengths)` (first maximum — Mathlib's
`List.argmax` also keeps the earliest maximum on ties) and keep the
corresponding period iff its strength exceeds `0.3`. -/
noncomputable def seasonalDominant (data : List ℚ) : Option ℕ :=
  match List.argmax (fun pr : ℕ × ℝ => pr.2) (seasonalPairs data) with
  | none => none
  | some pr => if (0.3 : ℝ) < pr.2 then some pr.1 else none

/-- Result of `calculate_seasonality_analysis`, lines 535-628.  The fields
`fourier_peaks` (built from scipy's `periodogram`, an external library,
and the only consumer of the `max_periods` argument) and
`seasonal_decomposition` (the constant `None`, line 616) are omitted; no
claim mentions them. -/
structure SeasonalityResult where
  seasonal_periods : List ℕ
  seasonal_strengths : List ℝ
  dominant_period : Option ℕ

/-- `calculate_seasonality_analysis(data)`, lines 535-628, restricted to
the fields above. -/
noncomputable def calculate_seasonality_analysis (data : List ℚ) :
    SeasonalityResult :=
  if data.length < 20 then ⟨[], [], none⟩
  else
    ⟨(seasonalPairs data).map Prod.fst,
     (seasonalPairs data).map Prod.snd,
     seasonalDominant data⟩

/-- Concrete constant series of length 30 used by the C5 witness. -/
def sampleConst30 : List ℚ := List.replicate 30 (2 : ℚ)

/-- Concrete constant series of length 52 used by the C10 witness. -/
def sampleConst52 : List ℚ := List.replicate 52 (2 : ℚ)

/-- Rounding to the nearest integer, halves to the even neighbour: the
behaviour of Python's `round` on the exact value.  (Binary-float
representation noise is not modelled; at the concrete inputs below the
argument is far from a tie, where every rounding convention agrees.) -/
def roundHalfEven (x : ℚ) : ℤ :=
  let f := ⌊x⌋
  let r := x - f
  if r < 1 / 2 then f
  else if 1 / 2 < r then f + 1
  else if f % 2 = 0 then f else f + 1

/-- Python's `round(x, 2)`: round half to even at the second decimal. -/
def round2 (x : ℚ) : ℚ := (roundHalfEven (x * 100) : ℚ) / 100

/-- A pandas DataFrame: a rectangular table stored as columns of optional
rationals; `none` is a missing cell (pandas `NaN`/`None`).  The invariant
`hcols` is pandas' rectangularity: every column has `len(df)` rows. -/
structure PandasDF where
  nrows : ℕ
  cols : List (List (Option ℚ))
  hcols : ∀ c ∈ cols, c.length = nrows

/-- `total_missing`: the sum over columns of `df[col].isnull().sum()`,
lines 242-250 of `data_analysis_service.py`. -/
def totalMissing (df : PandasDF) : ℕ :=
  (df.cols.map fun c => c.countP fun x => x.isNone).sum

/-- `total_cells = total_rows * total_columns`, line 220. -/
def totalCells (df : PandasDF) : ℕ := df.nrows * df.cols.length

/-- The fields of `calculate_data_quality` the claims touch.  The other
fields (duplicate rows, inferred types, outlier counts, the consistency
and overall scores, issues and recommendations — lines 252-346) do not
feed back into `completeness_score` and are omitted. -/
structure QualityReport where
  total_rows : ℕ
  total_columns : ℕ
  completeness_score : ℚ

/-- `calculate_data_quality(df)`, lines 205-364, restricted to the fields
above: the `total_cells == 0` early return (lines 222-239) reports score
`0`; otherwise `completeness_score = (total_cells - total_missing) /
total_cells * 100` (line 289), reported as `round(completeness_score, 2)`
(line 359). -/
def calculate_data_quality (df : PandasDF) : QualityReport :=
  if totalCells df = 0 then ⟨0, 0, 0⟩
  else
    let completeness : ℚ :=
      ((totalCells df : ℚ) - (totalMissing df : ℚ)) / (totalCells df : ℚ)
        * 100
    ⟨df.nrows, df.cols.length, round2 completeness⟩

/-- A 3-row, 1-column table with exactly one missing cell: `N = 3`,
`k = 1`, so the exact completeness would be `200/3 = 66.666...`, which the
code reports rounded to `66.67`. -/
def dfMissingOne : PandasDF := ⟨3, [[some 1, some 2, none]], by decide⟩

/-- A 2-row, 1-column table with no missing cells. -/
def dfComplete : PandasDF := ⟨2, [[some 1, some 2]], by decide⟩

theorem meanQ_replicate (n : ℕ) (c : ℚ) (hn : n ≠ 0) :
    meanQ (List.replicate n c) = c := by
  simp only [meanQ, List.sum_replicate, List.length_replicate, nsmul_eq_mul]
  rw [mul_comm, mul_div_assoc, div_self (by exact_mod_cast hn), mul_one]

theorem varQ_replicate (n : ℕ) (c : ℚ) (hn : n ≠ 0) :
    varQ (List.replicate n c) = 0 := by
  simp only [varQ, meanQ_replicate n c hn, List.map_replicate, sub_self]
  simp [meanQ]

theorem acfValues_length (data : List ℚ) (L : ℕ) :
    (acfValues data L).length = acfMaxLags data.length L + 1 := by
  simp [acfValues]

/-- Claim C1: for every numeric series of length `n ≥ 10` and every requested
`max_lags`, the ACF result has `acf_values[0] == 1.0` exactly, independently
of the data. -/
theorem acf_lag_zero_is_one (data : List ℚ) (L : ℕ) (h : 10 ≤ data.length) :
    (calculate_autocorrelation data L).acf_values.head? = some 1 := by
  rw [calculate_autocorrelation, if_neg (by omega)]
  show (acfValues data L).head? = some 1
  rw [acfValues]
  simp [List.range_succ_eq_map]

/-- Witness for C1 at the concrete ramp series of length 12. -/
theorem acf_lag_zero_is_one_witness :
    10 ≤ sampleRamp12.length ∧
      (calculate_autocorrelation sampleRamp12 50).acf_values.head? = some 1 :=
  ⟨by decide, acf_lag_zero_is_one sampleRamp12 50 (by decide)⟩

/-- Claim C2: for every numeric series of length `n ≥ 10` and every requested
`max_lags`, `len(acf_values) = len(lags) = len(confidence_intervals) =
max_lags_effective + 1` where `max_lags_effective = min(max_lags, n / 4)`
(integer division, as everywhere in this spec). -/
theorem acf_lengths_eq (data : List ℚ) (L : ℕ) (h : 10 ≤ data.length) :
    (calculate_autocorrelation data L).acf_values.length
        = min L (data.length / 4) + 1 ∧
      (calculate_autocorrelation data L).lags.length
        = min L (data.length / 4) + 1 ∧
      (calculate_autocorrelation data L).confidence_intervals.length
        = min L (data.length / 4) + 1 := by
  rw [calculate_autocorrelation, if_neg (by omega)]
  refine ⟨?_, ?_, ?_⟩ <;> simp [acfValues, acfMaxLags]

/-- Witness for C2 at the concrete ramp series of length 12 and
`max_lags = 50` (effective `min 50 3 = 3`). -/
theorem acf_lengths_eq_witness :
    10 ≤ sampleRamp12.length ∧
      (calculate_autocorrelation sampleRamp12 50).acf_values.length
          = min 50 (sampleRamp12.length / 4) + 1 ∧
        (calculate_autocorrelation sampleRamp12 50).lags.length
          = min 50 (sampleRamp12.length / 4) + 1 ∧
        (calculate_autocorrelation sampleRamp12 50).confidence_intervals.length
          = min 50 (sampleRamp12.length / 4) + 1 :=
  ⟨by decide, acf_lengths_eq sampleRamp12 50 (by decide)⟩

/-- Claim C9: for every constant series of length `n ≥ 10` (so `c0 = 0`),
the ACF values are `1` at lag 0 and `0` at every positive lag: the code's
`c_lag / c0 if c0 > 0 else 0` guard takes the `else` branch at every
positive lag, so no division by zero is performed and no exception raised
(the embedding is a total function). -/
theorem acf_constant_series_zero (c : ℚ) (n L : ℕ) (h : 10 ≤ n) :
    (calculate_autocorrelation (List.replicate n c) L).acf_values
      = 1 :: List.replicate (acfMaxLags n L) 0 := by
  rw [calculate_autocorrelation, if_neg (by simp; omega)]
  show acfValues (List.replicate n c) L = _
  rw [acfValues]
  simp only [List.length_replicate, varQ_replicate n c (by omega),
    List.range_succ_eq_map, List.map_cons, if_pos rfl, List.map_map]
  refine congrArg _ ?_
  rw [List.map_congr_left (g := fun _ => (0 : ℚ)) ?_]
  · rw [List.map_const', List.length_range]
  · intro a _
    simp [Function.comp, Nat.succ_ne_zero]

/-- Witness for C9 at the constant series `5, 5, ..., 5` of length 12. -/
theorem acf_constant_series_zero_witness :
    (calculate_autocorrelation sampleConst12 50).acf_values
      = 1 :: List.replicate (acfMaxLags 12 50) 0 :=
  acf_constant_series_zero 5 12 50 (by decide)

theorem acfMaxLags_idem (n L : ℕ) :
    acfMaxLags n (acfMaxLags n L) = acfMaxLags n L := by
  simp only [acfMaxLags]; omega

theorem pacfValues_eq (data : List ℚ) (L : ℕ) :
    pacfValues data L =
      1 :: ((List.range' 1 (acfMaxLags data.length L)).map fun k =>
        if k = 1 then (acfValues data (acfMaxLags data.length L)).getD 1 0
        else pacfNext (acfValues data (acfMaxLags data.length L)) k) := by
  rw [pacfValues]
  have hall : ∀ x ∈ List.range' 1 (acfMaxLags data.length L),
      (decide (x < (acfValues data (acfMaxLags data.length L)).length)) = true := by
    intro x hx
    rw [List.mem_range'_1] at hx
    simp only [decide_eq_true_eq, acfValues_length, acfMaxLags_idem]
    omega
  rw [List.takeWhile_eq_self_iff.mpr hall]

theorem pacfValues_length (data : List ℚ) (L : ℕ) :
    (pacfValues data L).length = acfMaxLags data.length L + 1 := by
  rw [pacfValues_eq]
  simp

theorem pacfValues_getD (data : List ℚ) (L k : ℕ) (hk1 : 1 ≤ k)
    (hk : k ≤ acfMaxLags data.length L) :
    (pacfValues data L).getD k 1 =
      if k = 1 then (acfValues data (acfMaxLags data.length L)).getD 1 0
      else pacfNext (acfValues data (acfMaxLags data.length L)) k := by
  obtain ⟨j, rfl⟩ : ∃ j, k = j + 1 := ⟨k - 1, by omega⟩
  rw [pacfValues_eq, List.getD_cons_succ]
  have hj : j < ((List.range' 1 (acfMaxLags data.length L)).map fun k =>
      if k = 1 then (acfValues data (acfMaxLags data.length L)).getD 1 0
      else pacfNext (acfValues data (acfMaxLags data.length L)) k).length := by
    simp; omega
  rw [List.getD_eq_getElem _ _ hj, List.getElem_map,
    List.getElem_range'_1 j (by simpa using hj)]
  have : 1 + j = j + 1 := by omega
  rw [this]

theorem pacf_values_eq_pacfValues (data : List ℚ) (L : ℕ)
    (h10 : 10 ≤ data.length) (heff : 1 ≤ acfMaxLags data.length L) :
    (calculate_partial_autocorrelation data L).pacf_values
      = pacfValues data L := by
  simp only [calculate_partial_autocorrelation]
  rw [if_neg (by omega),
    if_neg (by rw [acfValues_length, acfMaxLags_idem]; omega)]

/-- Claim C4: for every numeric series of length `n ≥ 10` and every order
`2 ≤ k ≤ max_lags_effective` at which the `k×k` Toeplitz matrix `R` built
from the ACF is singular (`det R = 0`), the PACF computation emits
`PACF(k) = 0` at that order and still continues through all subsequent
orders (the output holds all `max_lags_effective + 1` values); the
embedding is a total function, so no exception is raised. -/
theorem pacf_singular_order_zero (data : List ℚ) (L k : ℕ)
    (h10 : 10 ≤ data.length) (hk2 : 2 ≤ k)
    (hkle : k ≤ acfMaxLags data.length L)
    (hdet : (yuleWalkerR (acfValues data (acfMaxLags data.length L)) k).det
      = 0) :
    (calculate_partial_autocorrelation data L).pacf_values.getD k 1 = 0 ∧
      (calculate_partial_autocorrelation data L).pacf_values.length
        = acfMaxLags data.length L + 1 := by
  have hvals := pacf_values_eq_pacfValues data L h10 (by omega)
  constructor
  · rw [hvals, pacfValues_getD data L k (by omega) hkle, if_neg (by omega),
      pacfNext, dif_neg (by omega : ¬k = 0)]
    simp [hdet]
  · rw [hvals, pacfValues_length]

/-- Witness for C4: the alternating series `1, -1, ...` of length 12 has
exact lag-1 autocorrelation `-1`, so the order-2 Yule-Walker matrix
`[[1, -1], [-1, 1]]` is singular; the PACF emits 0 at order 2 and the
output still has `min 50 (12/4) + 1 = 4` entries. -/
theorem pacf_singular_order_zero_witness :
    (calculate_partial_autocorrelation sampleAlt12 50).pacf_values.getD 2 1
        = 0 ∧
      (calculate_partial_autocorrelation sampleAlt12 50).pacf_values.length
        = acfMaxLags sampleAlt12.length 50 + 1 :=
  pacf_singular_order_zero sampleAlt12 50 2 (by decide) (by decide)
    (by decide)
    (by
      have h3 : acfMaxLags sampleAlt12.length 50 = 3 := by decide
      rw [h3]
      have hacf : acfValues sampleAlt12 3 = [1, -1, 1, -1] := by
        norm_num [acfValues, acfMaxLags, meanQ, varQ, sampleAlt12,
          List.range_succ]
      rw [hacf, Matrix.det_fin_two]
      norm_num [yuleWalkerR, Nat.dist])

/-- Claim C3: for every numeric series of length `n ≥ 20`, the battery's
ADF verdict has `adf_is_stationary` true exactly when the ADF statistic is
strictly below the 5% critical value `-2.86`. -/
theorem adf_stationary_iff_below_crit5 (data : List ℚ)
    (h : 20 ≤ data.length) :
    ((calculate_stationarity_tests data).adf_is_stationary ↔
        (calculate_stationarity_tests data).adf_statistic < -2.86) ∧
      (calculate_stationarity_tests data).adf_critical_5 = -2.86 := by
  simp only [calculate_stationarity_tests]
  rw [if_neg (by omega), if_pos (by constructor <;> simp [diffQ] <;> omega)]
  refine ⟨?_, rfl⟩
  show (corrR (diffQ data) (List.take (data.length - 1) data) *
      Real.sqrt data.length < ((-2.86 : ℚ) : ℝ)) ↔
    (corrR (diffQ data) (List.take (data.length - 1) data) *
      Real.sqrt data.length < -2.86)
  norm_num

/-- Witness for C3 at the ramp series of length 20. -/
theorem adf_stationary_iff_below_crit5_witness :
    ((calculate_stationarity_tests sampleRamp20).adf_is_stationary ↔
        (calculate_stationarity_tests sampleRamp20).adf_statistic < -2.86) ∧
      (calculate_stationarity_tests sampleRamp20).adf_critical_5 = -2.86 :=
  adf_stationary_iff_below_crit5 sampleRamp20 (by decide)

theorem find?_range'_eq_some (p : ℕ → Bool) :
    ∀ m s k : ℕ, ((List.range' s m).find? p = some k ↔
      (s ≤ k ∧ k < s + m ∧ p k = true ∧
        ∀ j, s ≤ j → j < k → p j = false)) := by
  intro m
  induction m with
  | zero =>
    intro s k
    constructor
    · intro hc; cases hc
    · rintro ⟨h1, h2, -, -⟩; omega
  | succ m ih =>
    intro s k
    rw [show List.range' s (m + 1) = s :: List.range' (s + 1) m from rfl]
    by_cases hps : p s = true
    · rw [List.find?_cons_of_pos _ hps]
      constructor
      · intro hc
        injection hc with hc
        subst hc
        exact ⟨le_rfl, by omega, hps, fun j h1 h2 => absurd h1 (by omega)⟩
      · rintro ⟨h1, h2, h3, h4⟩
        by_cases hks : k = s
        · rw [hks]
        · have := h4 s le_rfl (by omega)
          rw [hps] at this
          cases this
    · have hps' : p s = false := by
        cases hx : p s
        · rfl
        · exact absurd hx hps
      rw [List.find?_cons_of_neg _ (by simp [hps'])]
      rw [ih (s + 1) k]
      constructor
      · rintro ⟨h1, h2, h3, h4⟩
        refine ⟨by omega, by omega, h3, fun j hj1 hj2 => ?_⟩
        by_cases hjs : j = s
        · rw [hjs]; exact hps'
        · exact h4 j (by omega) hj2
      · rintro ⟨h1, h2, h3, h4⟩
        have hks : k ≠ s := by
          intro he
          rw [he, hps'] at h3
          cases h3
        exact ⟨by omega, by omega, h3, fun j hj1 hj2 => h4 j (by omega) hj2⟩

theorem miOptimalLag_some_iff (mv : List ℚ) (k : ℕ) :
    miOptimalLag mv = some k ↔
      miLocalMin mv k ∧ ∀ j, miLocalMin mv j → k ≤ j := by
  rw [miOptimalLag]
  by_cases hlen : 3 < mv.length
  · rw [if_pos hlen, find?_range'_eq_some]
    constructor
    · rintro ⟨h1, h2, h3, h4⟩
      rw [Bool.and_eq_true, decide_eq_true_eq, decide_eq_true_eq] at h3
      refine ⟨⟨h1, by omega, h3.1, h3.2⟩, fun j hj => ?_⟩
      by_contra hlt
      have h4j := h4 j hj.1 (by omega)
      have htr : (decide (mv.getD j 0 < mv.getD (j - 1) 0) &&
          decide (mv.getD j 0 < mv.getD (j + 1) 0)) = true := by
        rw [Bool.and_eq_true, decide_eq_true_eq, decide_eq_true_eq]
        exact ⟨hj.2.2.1, hj.2.2.2⟩
      rw [h4j] at htr
      cases htr
    · rintro ⟨⟨h1, h2, h3, h4⟩, hmin⟩
      refine ⟨h1, by omega, ?_, fun j hj1 hj2 => ?_⟩
      · rw [Bool.and_eq_true, decide_eq_true_eq, decide_eq_true_eq]
        exact ⟨h3, h4⟩
      · by_contra hj
        rw [Bool.not_eq_false, Bool.and_eq_true, decide_eq_true_eq,
          decide_eq_true_eq] at hj
        have : miLocalMin mv j := ⟨hj1, by omega, hj.1, hj.2⟩
        exact absurd (hmin j this) (by omega)
  · rw [if_neg hlen]
    constructor
    · intro hc; cases hc
    · rintro ⟨⟨h1, h2, -, -⟩, -⟩
      omega

theorem miOptimalLag_none_iff (mv : List ℚ) :
    miOptimalLag mv = none ↔ ∀ k, ¬miLocalMin mv k := by
  constructor
  · intro hnone k hk
    have hex : ∃ j, miLocalMin mv j := ⟨k, hk⟩
    have hsome := (miOptimalLag_some_iff mv (Nat.find hex)).mpr
      ⟨Nat.find_spec hex, fun j hj => Nat.find_le hj⟩
    rw [hnone] at hsome
    cases hsome
  · intro hall
    cases hfind : miOptimalLag mv with
    | none => rfl
    | some k =>
      exact absurd ((miOptimalLag_some_iff mv k).mp hfind).1 (hall k)

/-- Claim C8: for every numeric series of length `n ≥ 20` (and any MI
estimator, sklearn's being external to this repository), `optimal_lag` is
the smallest lag `k ≥ 2` that is a strict local minimum of the MI curve
(`MI(k) < MI(k-1)` and `MI(k) < MI(k+1)`), and `None` when no such lag
exists. -/
theorem mi_optimal_lag_first_local_min (miEst : List ℚ → List ℚ → ℚ)
    (data : List ℚ) (L : ℕ) (h : 20 ≤ data.length) :
    (∀ k, (calculate_mutual_information miEst data L).optimal_lag = some k ↔
        (miLocalMin (calculate_mutual_information miEst data L).mi_values k ∧
          ∀ j, miLocalMin
            (calculate_mutual_information miEst data L).mi_values j →
              k ≤ j)) ∧
      ((calculate_mutual_information miEst data L).optimal_lag = none ↔
        ∀ k, ¬miLocalMin
          (calculate_mutual_information miEst data L).mi_values k) := by
  have hfields :
      (calculate_mutual_information miEst data L).optimal_lag
          = miOptimalLag (miValues miEst data L) ∧
        (calculate_mutual_information miEst data L).mi_values
          = miValues miEst data L := by
    rw [calculate_mutual_information, if_neg (by omega)]
    exact ⟨rfl, rfl⟩
  rw [hfields.1, hfields.2]
  exact ⟨fun k => miOptimalLag_some_iff _ k, miOptimalLag_none_iff _⟩

/-- Witness for C8 at the ramp series of length 20 with the constant-zero
MI estimator. -/
theorem mi_optimal_lag_first_local_min_witness :
    (∀ k, (calculate_mutual_information (fun _ _ => 0) sampleRamp20
          30).optimal_lag = some k ↔
        (miLocalMin (calculate_mutual_information (fun _ _ => 0)
            sampleRamp20 30).mi_values k ∧
          ∀ j, miLocalMin (calculate_mutual_information (fun _ _ => 0)
            sampleRamp20 30).mi_values j → k ≤ j)) ∧
      ((calculate_mutual_information (fun _ _ => 0) sampleRamp20
          30).optimal_lag = none ↔
        ∀ k, ¬miLocalMin (calculate_mutual_information (fun _ _ => 0)
          sampleRamp20 30).mi_values k) :=
  mi_optimal_lag_first_local_min (fun _ _ => 0) sampleRamp20 30 (by decide)

theorem rsLoop_length (data : List ℚ) :
    ∀ l : List ℕ, (∀ s ∈ l, s < data.length) →
      (rsLoop data l).length = l.length := by
  intro l
  induction l with
  | nil => intro _; rfl
  | cons s rest ih =>
    intro h
    simp only [rsLoop]
    rw [if_neg (by have := h s (by simp); omega)]
    simp only [List.length_cons, ih fun x hx => h x (by simp [hx])]

theorem hurstScales_of_50_le (n : ℕ) (h50 : 50 ≤ n) (h63 : n ≤ 63) :
    hurstScales n = [4, 8] := by
  have hlog : Nat.log 2 (n / 4) = 3 := by
    refine Nat.log_eq_of_pow_le_of_lt_pow ?_ ?_
    · show 2 ^ 3 ≤ n / 4
      have : (8 : ℕ) ≤ n / 4 := by omega
      simpa using this
    · show n / 4 < 2 ^ 4
      have : n / 4 < 16 := by omega
      simpa using this
  simp only [hurstScales, hlog]
  rfl

theorem hurstTrimmedScales_of_50_le (data : List ℚ)
    (h50 : 50 ≤ data.length) (h63 : data.length ≤ 63) :
    hurstTrimmedScales data = [4, 8] := by
  have hs := hurstScales_of_50_le data.length h50 h63
  have hlen : (rsLoop data (hurstScales data.length)).length = 2 := by
    rw [hs, rsLoop_length data [4, 8] (by intro s hs'; fin_cases hs' <;> omega)]
    rfl
  rw [hurstTrimmedScales, hlen, hs]
  rfl

/-- Claim C5: for every numeric series, if `n < 50` or fewer than 3 usable
scales remain after the R/S computation, the Hurst estimator returns
`hurst_exponent = 0.5` with interpretation `"insufficient_data"` (`n < 50`)
or `"insufficient_scales"` (fewer than 3 scales); the embedding is a total
function, so no exception is raised. -/
theorem hurst_degenerate_returns_half (data : List ℚ)
    (h : data.length < 50 ∨
      (50 ≤ data.length ∧ (hurstTrimmedScales data).length < 3)) :
    (calculate_hurst_exponent data).hurst_exponent = 0.5 ∧
      (calculate_hurst_exponent data).interpretation =
        (if data.length < 50 then "insufficient_data"
         else "insufficient_scales") := by
  rcases h with h | ⟨h50, hsc⟩
  · rw [calculate_hurst_exponent, if_pos h]
    exact ⟨rfl, by rw [if_pos h]⟩
  · simp only [calculate_hurst_exponent]
    rw [if_neg (by omega), if_pos hsc]
    exact ⟨rfl, by rw [if_neg (by omega)]⟩

/-- Witness for C5 at a constant series of length 30 (`n < 50`). -/
theorem hurst_degenerate_returns_half_witness :
    (calculate_hurst_exponent sampleConst30).hurst_exponent = 0.5 ∧
      (calculate_hurst_exponent sampleConst30).interpretation =
        (if sampleConst30.length < 50 then "insufficient_data"
         else "insufficient_scales") :=
  hurst_degenerate_returns_half sampleConst30 (Or.inl (by decide))

/-- Claim C10: for every numeric series with `50 ≤ n ≤ 63`, the dyadic
scale list is exactly `[4, 8]` — two scales, below the three the
regression requires — so the Hurst estimator always returns the degenerate
`hurst_exponent = 0.5` with interpretation `"insufficient_scales"`; a
non-degenerate estimate needs at least three scales, first available at
`n = 64` (`n/4 = 16 = 2^4`), strictly above the stated minimum length
50. -/
theorem hurst_50_to_63_insufficient_scales (data : List ℚ)
    (h50 : 50 ≤ data.length) (h63 : data.length ≤ 63) :
    hurstTrimmedScales data = [4, 8] ∧
      (calculate_hurst_exponent data).hurst_exponent = 0.5 ∧
      (calculate_hurst_exponent data).interpretation
        = "insufficient_scales" := by
  have htrim := hurstTrimmedScales_of_50_le data h50 h63
  refine ⟨htrim, ?_⟩
  simp only [calculate_hurst_exponent]
  rw [if_neg (by omega), if_pos (by rw [htrim]; decide)]
  exact ⟨rfl, rfl⟩

/-- Witness for C10 at a constant series of length 52. -/
theorem hurst_50_to_63_insufficient_scales_witness :
    hurstTrimmedScales sampleConst52 = [4, 8] ∧
      (calculate_hurst_exponent sampleConst52).hurst_exponent = 0.5 ∧
      (calculate_hurst_exponent sampleConst52).interpretation
        = "insufficient_scales" :=
  hurst_50_to_63_insufficient_scales sampleConst52 (by decide) (by decide)

theorem seasonalDominant_eq (data : List ℚ) (h : 20 ≤ data.length) :
    (calculate_seasonality_analysis data).dominant_period
      = seasonalDominant data := by
  rw [calculate_seasonality_analysis, if_neg (by omega)]

/-- Claim C7: for every numeric series of length `n ≥ 20`, the candidates
are the canonical periods `{7, 12, 24, 30, 365}` shorter than `n/2` (whose
lagged self-correlation is defined); `dominant_period` is a candidate of
maximal absolute correlation provided that maximum exceeds `0.3`, and
`None` otherwise. -/
theorem dominant_period_argmax_spec (data : List ℚ) (h : 20 ≤ data.length) :
    (∀ p, (calculate_seasonality_analysis data).dominant_period = some p →
        ∃ s, (p, s) ∈ seasonalPairs data ∧ (0.3 : ℝ) < s ∧
          ∀ q ∈ seasonalPairs data, q.2 ≤ s) ∧
      ((calculate_seasonality_analysis data).dominant_period = none ↔
        ∀ q ∈ seasonalPairs data, q.2 ≤ 0.3) ∧
      (∀ q ∈ seasonalPairs data, q.1 ∈ commonPeriods ∧
        q.1 < data.length / 2) := by
  rw [seasonalDominant_eq data h]
  refine ⟨?_, ?_, ?_⟩
  · intro p hp
    rw [seasonalDominant] at hp
    cases harg : List.argmax (fun pr : ℕ × ℝ => pr.2) (seasonalPairs data)
      with
    | none => rw [harg] at hp; cases hp
    | some pr =>
      rw [harg] at hp
      change (if (0.3 : ℝ) < pr.2 then some pr.1 else none) = some p at hp
      by_cases h3 : (0.3 : ℝ) < pr.2
      · rw [if_pos h3] at hp
        injection hp with hp
        refine ⟨pr.2, ?_, h3, fun q hq => List.le_of_mem_argmax hq harg⟩
        have := List.argmax_mem (f := fun pr : ℕ × ℝ => pr.2)
          (show pr ∈ _ from harg)
        rw [← hp, Prod.mk.eta]
        exact this
      · rw [if_neg h3] at hp; cases hp
  · constructor
    · intro hnone q hq
      rw [seasonalDominant] at hnone
      cases harg : List.argmax (fun pr : ℕ × ℝ => pr.2) (seasonalPairs data)
        with
      | none =>
        rw [List.argmax_eq_none] at harg
        rw [harg] at hq
        cases hq
      | some pr =>
        rw [harg] at hnone
        change (if (0.3 : ℝ) < pr.2 then some pr.1 else none) = none at hnone
        by_cases h3 : (0.3 : ℝ) < pr.2
        · rw [if_pos h3] at hnone; cases hnone
        · exact le_trans (List.le_of_mem_argmax hq harg) (not_lt.mp h3)
    · intro hall
      rw [seasonalDominant]
      cases harg : List.argmax (fun pr : ℕ × ℝ => pr.2) (seasonalPairs data)
        with
      | none => rfl
      | some pr =>
        have hmem := List.argmax_mem (f := fun pr : ℕ × ℝ => pr.2)
          (show pr ∈ _ from harg)
        show (if (0.3 : ℝ) < pr.2 then some pr.1 else none) = none
        rw [if_neg (not_lt.mpr (hall pr hmem))]
  · intro q hq
    simp only [seasonalPairs] at hq
    obtain ⟨a, ha, hfa⟩ := List.mem_filterMap.mp hq
    split_ifs at hfa with h1 h2 h3 h4
    · injection hfa with hfa
      rw [← hfa]
      exact ⟨ha, by omega⟩

/-- Counterexample to C6 as stated: for the 3-cell table with one missing
cell the reported `completeness_score` is `round(200/3, 2) = 66.67`, which
is not exactly `100 * (N - k) / N = 200/3`. -/
theorem completeness_not_exact_cex :
    (calculate_data_quality dfMissingOne).completeness_score ≠
      100 * ((3 : ℚ) - 1) / 3 := by
  have hcells : totalCells dfMissingOne = 3 := by decide
  have hmiss : totalMissing dfMissingOne = 1 := by decide
  rw [calculate_data_quality, if_neg (by rw [hcells]; omega)]
  show round2 _ ≠ _
  rw [hcells, hmiss, round2, roundHalfEven]
  push_cast
  rw [show ((3 : ℚ) - 1) / 3 * 100 * 100 = 20000 / 3 from by norm_num]
  rw [show ⌊(20000 / 3 : ℚ)⌋ = 6666 from by
    rw [Int.floor_eq_iff]; norm_num]
  rw [if_neg (by norm_num), if_pos (by norm_num)]
  norm_num

/-- Claim C6, amended: for every nonempty table, the reported
`completeness_score` is `100 (N - k) / N` rounded half-to-even at the
second decimal place; in particular a table with `k = 0` missing cells
reports exactly `100.0`. -/
theorem completeness_score_rounded (df : PandasDF)
    (h : 0 < totalCells df) :
    (calculate_data_quality df).completeness_score =
        round2 (100 * ((totalCells df : ℚ) - totalMissing df)
          / totalCells df) ∧
      (totalMissing df = 0 →
        (calculate_data_quality df).completeness_score = 100) := by
  have hc0 : ((totalCells df : ℚ)) ≠ 0 := by
    exact_mod_cast Nat.pos_iff_ne_zero.mp h
  constructor
  · rw [calculate_data_quality, if_neg (by omega)]
    show round2 _ = round2 _
    exact congrArg round2 (by ring)
  · intro hm
    rw [calculate_data_quality, if_neg (by omega)]
    show round2 (((totalCells df : ℚ) - (totalMissing df : ℚ))
      / (totalCells df : ℚ) * 100) = 100
    rw [hm]
    have hone : ((totalCells df : ℚ) - (0 : ℕ)) / (totalCells df : ℚ) * 100
        = 100 := by
      rw [Nat.cast_zero, sub_zero, div_self hc0, one_mul]
    rw [hone, round2, roundHalfEven]
    rw [show (100 : ℚ) * 100 = 10000 from by norm_num]
    rw [show ⌊(10000 : ℚ)⌋ = 10000 from by rw [Int.floor_eq_iff]; norm_num]
    rw [if_pos (by norm_num)]
    norm_num

/-- Witness for the amended C6 at the complete 2-cell table. -/
theorem completeness_score_rounded_witness :
    (calculate_data_quality dfComplete).completeness_score = 100 :=
  (completeness_score_rounded dfComplete (by decide)).2 (by decide)

/-- Witness for C7 at the ramp series of length 20. -/
theorem dominant_period_argmax_spec_witness :
    (∀ p, (calculate_seasonality_analysis sampleRamp20).dominant_period
          = some p →
        ∃ s, (p, s) ∈ seasonalPairs sampleRamp20 ∧ (0.3 : ℝ) < s ∧
          ∀ q ∈ seasonalPairs sampleRamp20, q.2 ≤ s) ∧
      ((calculate_seasonality_analysis sampleRamp20).dominant_period
          = none ↔
        ∀ q ∈ seasonalPairs sampleRamp20, q.2 ≤ 0.3) ∧
      (∀ q ∈ seasonalPairs sampleRamp20, q.1 ∈ commonPeriods ∧
        q.1 < sampleRamp20.length / 2) :=
  dominant_period_argmax_spec sampleRamp20 (by decide)
